import Mathlib

/-!
Verification of the ScandEval benchmarking core against its specification.

This file gives a shallow embedding of the algorithmic core of the repository:

* the generative-output-to-label resolution of
  `src/scandeval/sequence_classification.py`
  (`get_closest_logprobs_labels`, `get_closest_word_edit_labels`,
  `_create_numerical_labels`, `_extract_few_shot_examples`), and
* the sliding-window answer alignment of
  `src/scandeval/question_answering.py`
  (`prepare_train_examples`, `prepare_test_examples`).

External collaborators (the tokenization engine, the model runtime, the
seeded shuffles of the PRNG and of the dataset library, the decode step of
`extract_raw_predictions`) are modelled as explicit function parameters, so
every embedded operation is a total computable Lean function.  Python
exceptions and crashes are modelled by `Option`/`Except` results: `none`
means the Python code raises.  Floating point log-probabilities are
modelled by `Int` scores; the claims under study only compare and select
scores, they never do float arithmetic.
-/

namespace ScandEval

/-! ## Generic helpers -/

/-- Apply an effectful function to every element of a list, propagating
failure, exactly like a Python list comprehension or loop that may raise:
the first failing element aborts the whole traversal. -/
def mapOrNone (f : α → Option β) : List α → Option (List β)
  | [] => some []
  | a :: l =>
    match f a with
    | none => none
    | some b =>
      match mapOrNone f l with
      | none => none
      | some r => some (b :: r)

theorem mapOrNone_length {f : α → Option β} :
    ∀ {l : List α} {r : List β}, mapOrNone f l = some r → r.length = l.length := by
  intro l
  induction l with
  | nil => intro r h; simp [mapOrNone] at h; simp [← h]
  | cons a l ih =>
    intro r h
    simp only [mapOrNone] at h
    cases hfa : f a with
    | none => rw [hfa] at h; exact absurd h (by simp)
    | some b =>
      rw [hfa] at h
      cases hrec : mapOrNone f l with
      | none => rw [hrec] at h; exact absurd h (by simp)
      | some r' =>
        rw [hrec] at h
        cases h
        simp [ih hrec]

theorem mapOrNone_get? {f : α → Option β} :
    ∀ {l : List α} {r : List β}, mapOrNone f l = some r →
      ∀ i a, l.get? i = some a → ∃ b, f a = some b ∧ r.get? i = some b := by
  intro l
  induction l with
  | nil => intro r _ i a ha; simp at ha
  | cons x l ih =>
    intro r h i a ha
    simp only [mapOrNone] at h
    cases hfx : f x with
    | none => rw [hfx] at h; exact absurd h (by simp)
    | some b =>
      rw [hfx] at h
      cases hrec : mapOrNone f l with
      | none => rw [hrec] at h; exact absurd h (by simp)
      | some r' =>
        rw [hrec] at h
        cases h
        cases i with
        | zero => simp at ha; subst ha; exact ⟨b, hfx, rfl⟩
        | succ i => exact ih hrec i a ha

theorem mapOrNone_mem {f : α → Option β} :
    ∀ {l : List α} {r : List β}, mapOrNone f l = some r →
      ∀ b ∈ r, ∃ a ∈ l, f a = some b := by
  intro l
  induction l with
  | nil => intro r h b hb; simp [mapOrNone] at h; subst h; simp at hb
  | cons x l ih =>
    intro r h b hb
    simp only [mapOrNone] at h
    cases hfx : f x with
    | none => rw [hfx] at h; exact absurd h (by simp)
    | some b' =>
      rw [hfx] at h
      cases hrec : mapOrNone f l with
      | none => rw [hrec] at h; exact absurd h (by simp)
      | some r' =>
        rw [hrec] at h
        cases h
        rcases List.mem_cons.mp hb with hb | hb
        · exact ⟨x, List.mem_cons_self x l, hb ▸ hfx⟩
        · obtain ⟨a, ha, hfa⟩ := ih hrec b hb
          exact ⟨a, List.mem_cons_of_mem x ha, hfa⟩

/-- Python's `str.lower()` on the ASCII label and prediction strings the
embedded code lowercases.  (Core's `String.toLower` is defined by
well-founded recursion, which the kernel cannot evaluate; this
list-based rendering computes by `decide`/`rfl`.) -/
def pyLower (s : String) : String := ⟨s.data.map Char.toLower⟩

/-- Index and value of the first maximal element of a list, mirroring
`torch.argmax` which returns the index of the first maximal value;
`none` on an empty list (where `torch.argmax` raises). -/
def argmaxAux : List Int → Option (Nat × Int)
  | [] => none
  | x :: xs =>
    match argmaxAux xs with
    | none => some (0, x)
    | some (j, m) => if x < m then some (j + 1, m) else some (0, x)

theorem argmaxAux_eq_none : ∀ {l : List Int}, argmaxAux l = none → l = [] := by
  intro l h
  cases l with
  | nil => rfl
  | cons x xs =>
    simp only [argmaxAux] at h
    cases h' : argmaxAux xs with
    | none => rw [h'] at h; simp at h
    | some jm =>
      rw [h'] at h
      obtain ⟨j, m⟩ := jm
      change (if x < m then some (j + 1, m) else some (0, x)) = none at h
      split at h <;> simp at h

theorem argmaxAux_spec :
    ∀ {l : List Int} {j : Nat} {m : Int}, argmaxAux l = some (j, m) →
      l.get? j = some m ∧ (∀ i v, l.get? i = some v → v ≤ m) ∧
        (∀ i v, i < j → l.get? i = some v → v < m) := by
  intro l
  induction l with
  | nil => intro j m h; simp [argmaxAux] at h
  | cons x xs ih =>
    intro j m h
    simp only [argmaxAux] at h
    cases hrec : argmaxAux xs with
    | none =>
      rw [hrec] at h
      cases h
      have hxs := argmaxAux_eq_none hrec
      subst hxs
      refine ⟨rfl, ?_, ?_⟩
      · intro i v hv
        cases i with
        | zero => simp at hv; omega
        | succ i => simp at hv
      · intro i v hi; omega
    | some jm =>
      obtain ⟨j', m'⟩ := jm
      rw [hrec] at h
      change (if x < m' then some (j' + 1, m') else some (0, x)) = some (j, m) at h
      obtain ⟨hget, hmax, hfirst⟩ := ih hrec
      by_cases hlt : x < m'
      · rw [if_pos hlt] at h
        cases h
        refine ⟨hget, ?_, ?_⟩
        · intro i v hv
          cases i with
          | zero => simp at hv; omega
          | succ i => exact hmax i v (by simpa using hv)
        · intro i v hi hv
          cases i with
          | zero => simp at hv; omega
          | succ i => exact hfirst i v (by omega) (by simpa using hv)
      · rw [if_neg hlt] at h
        cases h
        refine ⟨rfl, ?_, ?_⟩
        · intro i v hv
          cases i with
          | zero => simp at hv; omega
          | succ i =>
            have := hmax i v (by simpa using hv)
            omega
        · intro i v hi; omega

/-- Index and value of the first minimal element of a list, mirroring
`numpy.argmin` which returns the index of the first occurrence of the
minimum; `none` on an empty list (where `numpy.argmin` raises). -/
def argminAux : List Nat → Option (Nat × Nat)
  | [] => none
  | x :: xs =>
    match argminAux xs with
    | none => some (0, x)
    | some (j, m) => if m < x then some (j + 1, m) else some (0, x)

/-! ## Sequence classification: generative label resolver

Embedded from `src/src/scandeval/sequence_classification.py`. -/

/-- Embeds `get_closest_logprobs_labels` (sequence_classification.py,
lines 295-345).  The external tokenizer is the parameter `tokenize`
(single-string tokenization without special tokens, as in
`tokenizer([candidate_label.lower()], add_special_tokens=False)`); the
candidate labels are the prompt labels of `id2label` in order; the
log-probability tensors (one per generation step, each indexed
batch × vocabulary) are `generation_logprobs`.  For each candidate the
representative id is the first token id of its lowercased prompt label,
and its score for a batch item is the log-probability of that id at the
first generated position (step 0).  The result for each item is the
candidate of the first maximal score (`torch.argmax`).  `none` models a
Python exception: empty logprob tuple (`torch.stack` raises), an empty
candidate tokenization (IndexError), a representative id outside the
vocabulary (index error), or an empty candidate list (`argmax` raises). -/
def get_closest_logprobs_labels (tokenize : String → List Nat)
    (id2label : List String) (prompt_label_mapping : String → String)
    (generation_logprobs : List (List (List Int))) : Option (List String) :=
  let candidate_labels := id2label.map prompt_label_mapping
  match generation_logprobs with
  | [] => none
  | step0 :: _ =>
    match mapOrNone (fun cl => (tokenize (pyLower cl)).head?) candidate_labels with
    | none => none
    | some repIds =>
      mapOrNone (fun row =>
        match mapOrNone (fun tid => row.get? tid) repIds with
        | none => none
        | some scores =>
          match argmaxAux scores with
          | none => none
          | some jm => candidate_labels.get? jm.1) step0

/-- Modelled from the spec: `extract_raw_predictions` (imported from the
repository module `scandeval/generation.py`, which is not part of the
provided sources) decodes each generated token-id sequence to text and
truncates it at task-specific stop markers.  The decode-and-truncate step
is modelled as the abstract per-item function `decodeTruncate`. -/
def extract_raw_predictions (decodeTruncate : List Nat → String)
    (generated_sequences : List (List Nat)) : List String :=
  generated_sequences.map decodeTruncate

/-- Embeds `get_closest_word_edit_labels` (sequence_classification.py,
lines 348-385): decode each generated sequence to a raw predicted phrase,
compute the Levenshtein edit distance between the lowercased phrase and
every lowercased candidate of `id2label`, and return the candidate of the
first minimal distance (`numpy.argmin`).  `none` models the Python error
on an empty candidate list (`argmin` raises). -/
def get_closest_word_edit_labels (decodeTruncate : List Nat → String)
    (id2label : List String) (generated_sequences : List (List Nat)) :
    Option (List String) :=
  let raw_predictions := extract_raw_predictions decodeTruncate generated_sequences
  mapOrNone (fun predicted_label =>
    let edit_distances := id2label.map (fun candidate_label =>
      levenshtein Levenshtein.defaultCost
        (pyLower predicted_label).toList (pyLower candidate_label).toList)
    match argminAux edit_distances with
    | none => none
    | some jm => id2label.get? jm.1) raw_predictions

/-- Python exceptions relevant to `_create_numerical_labels`:
the typed benchmark error the code intends to raise, and the untyped
`AttributeError` Python actually raises while building its message. -/
inductive PyError where
  | invalidBenchmark (msg : String)
  | attributeError (msg : String)
deriving DecidableEq

/-- Dictionary lookup in the `label2id` mapping: Python
`label2id[lbl.lower()]` succeeds only on an exact key match. -/
def lookup_label2id (label2id : List (String × Nat)) (key : String) : Option Nat :=
  (label2id.find? (fun p => p.1 == key)).map (fun p => p.2)

/-- Discriminator for the typed benchmark exception: `true` exactly when
an `Except` result is an `InvalidBenchmark` error. -/
def isInvalidBenchmark : Except PyError α → Bool
  | Except.error (PyError.invalidBenchmark _) => true
  | _ => false

/-- Embeds `_create_numerical_labels` (sequence_classification.py, lines
96-104).  The list comprehension maps every label through a lowercased
dictionary lookup; a missing key raises `KeyError`, which the handler
catches intending to raise `InvalidBenchmark` — but the handler's f-string
evaluates `examples["label"].lower()` where `examples["label"]` is the
whole *list* of labels, so building the message itself raises
`AttributeError` and the typed exception is never constructed. -/
def create_numerical_labels (label2id : List (String × Nat))
    (labels : List String) : Except PyError (List Nat) :=
  match mapOrNone (fun lbl => lookup_label2id label2id (pyLower lbl)) labels with
  | some ids => Except.ok ids
  | none => Except.error (PyError.attributeError
      "list object has no attribute lower")

/-! ## Sequence classification: few-shot prompt sampler

Embedded from `_extract_few_shot_examples` (sequence_classification.py,
lines 183-213). -/

/-- One training example of the classification few-shot pool. -/
structure FewShotExample where
  text : String
  label : String
deriving DecidableEq

/-- Case-insensitive label comparison of the filter
`lambda x: x["label"].lower() == label.lower()`. -/
def labelMatches (label : String) (x : FewShotExample) : Bool :=
  pyLower x.label == pyLower label

/-- Embeds the selection loop of `_extract_few_shot_examples`: `rem` picks
remain, `li` is the position of the `itertools.cycle` iterator over the
task's labels, and `pool` is the current (already seed-shuffled) training
split.  Each iteration takes the next label of the cycle, picks the first
remaining training example with that label (case-insensitively) —
`none` models the Python error when no such example remains (starvation)
or when the label list is empty (`next` on an empty cycle raises) — and
then removes every example with the picked example's exact text from the
pool. -/
def extractFewShotGo (labels : List String) :
    Nat → Nat → List FewShotExample → Option (List FewShotExample)
  | 0, _, _ => some []
  | rem + 1, li, pool =>
    match labels.get? (li % labels.length) with
    | none => none
    | some label =>
      match (pool.filter (labelMatches label)).head? with
      | none => none
      | some ex =>
        match extractFewShotGo labels rem (li + 1)
            (pool.filter (fun x => x.text != ex.text)) with
        | none => none
        | some rest => some (ex :: rest)

/-- Embeds `_extract_few_shot_examples` (sequence_classification.py, lines
183-213).  The externally seed-shuffled training split is the parameter
`shuffledTrain` (the result of `train_dataset.shuffle(seed=random_seed)`),
and the final presentation reshuffle `random.seed(random_seed);
random.shuffle(few_shot_examples)` is the abstract permutation
`presentationShuffle` of the external PRNG seeded with the same seed. -/
def extract_few_shot_examples (shuffledTrain : List FewShotExample)
    (labels : List String) (num_few_shots : Nat)
    (presentationShuffle : List FewShotExample → List FewShotExample) :
    Option (List FewShotExample) :=
  (extractFewShotGo labels num_few_shots 0 shuffledTrain).map presentationShuffle

/-- The label sequence that claim C3 predicts: round-robin over a
(seed-)shuffled copy of the Label Candidate Set, cycling until `k`
examples are collected.  This definition follows the wording of the
specification, not the source, and is compared against the source
embedding `extract_few_shot_examples`. -/
def claimAssignedLabels (shuffledLabels : List String) (k : Nat) : List String :=
  (List.range k).filterMap
    (fun i => shuffledLabels.get? (i % shuffledLabels.length))

/-! ## Question answering: window alignment

Embedded from `src/src/scandeval/question_answering.py`. -/

/-- The answer record of a QA example: Python
`answers = {"answer_start": [...], "text": [...]}`. -/
structure Answers where
  answer_start : List Nat
  text : List String
deriving DecidableEq

/-- One tokenized window (feature) as produced by the external tokenizer
for one overflow slice of one example: the token ids, the per-token
sequence tags (`none` for special/padding tokens, `some 0` for question
tokens, `some 1` for context tokens, as returned by `sequence_ids`), and
the per-token character offset pairs (`offset_mapping`). -/
structure TrainWindow where
  inputIds : List Nat
  seqIds : List (Option Nat)
  offsets : List (Nat × Nat)
deriving DecidableEq

/-- Python list indexing with negative-index wrap-around:
`l[i]` for `i ≥ 0` or `-len(l) ≤ i < 0`; `none` models `IndexError`. -/
def pyGet (l : List α) (i : Int) : Option α :=
  if 0 ≤ i then l.get? i.toNat
  else if 0 ≤ i + l.length then l.get? (i + l.length).toNat
  else none

/-- Downward scan of the loop `token_end_index = len(input_ids) - 1;
while sequence_ids[token_end_index] != 1: token_end_index -= 1`:
the greatest context-token index at or below the starting index.
`none` models non-termination/IndexError of the Python loop when no
context token exists below the start (unreachable in `labelWindow`,
where the preceding upward scan has already found a context token). -/
def scanDown (seqIds : List (Option Nat)) : Nat → Option Nat
  | 0 => if seqIds.get? 0 = some (some 1) then some 0 else none
  | i + 1 =>
    if seqIds.get? (i + 1) = some (some 1) then some (i + 1)
    else scanDown seqIds i

/-- Forward scan of the loop `while token_start_index < len(offsets) and
offsets[token_start_index][0] <= start_char: token_start_index += 1`,
with explicit fuel (`labelWindow` passes `offsets.length`, which bounds
the number of iterations since the index grows towards the length). -/
def scanForward (offsets : List (Nat × Nat)) (startChar : Nat) :
    Nat → Nat → Nat
  | 0, tsi => tsi
  | fuel + 1, tsi =>
    match offsets.get? tsi with
    | none => tsi
    | some o =>
      if o.1 ≤ startChar then scanForward offsets startChar fuel (tsi + 1)
      else tsi

/-- Backward scan of the loop `while offsets[token_end_index][1] >=
end_char: token_end_index -= 1`, which uses Python indexing and may walk
into negative indices; `none` models the eventual `IndexError` below
`-len(offsets)`.  The fuel passed by `labelWindow`
(`2 * offsets.length + 2`) bounds the number of iterations from any
start index below the length, so fuel exhaustion coincides with the
Python crash. -/
def scanBack (offsets : List (Nat × Nat)) (endChar : Nat) :
    Nat → Int → Option Int
  | 0, _ => none
  | fuel + 1, tei =>
    match pyGet offsets tei with
    | none => none
    | some o =>
      if endChar ≤ o.2 then scanBack offsets endChar fuel (tei - 1)
      else some tei

/-- Embeds the per-window labeling of `prepare_train_examples`
(question_answering.py, lines 172-228) for one window: compute the CLS
index (`input_ids.index(tokenizer.cls_token_id)`), use `(cls, cls)` as
the no-answer sentinel when the answer list is empty; otherwise take the
answer's character range from the *first* answer span, find the first and
last context tokens, fall back to the sentinel when their offsets do not
bracket the answer's character range (with Python's short-circuit `and`),
and otherwise run the two scans and emit
`(token_start_index - 1, token_end_index + 1)`.  `none` models a Python
exception (missing CLS token, missing answer text, no context token,
offsets shorter than the token list, or the backward scan's
IndexError). -/
def labelWindow (clsTokenId : Nat) (w : TrainWindow) (answers : Answers) :
    Option (Int × Int) :=
  match w.inputIds.indexOf? clsTokenId with
  | none => none
  | some clsIndex =>
    match answers.answer_start with
    | [] => some ((clsIndex : Int), (clsIndex : Int))
    | startChar :: _ =>
      match answers.text with
      | [] => none
      | text0 :: _ =>
        let endChar := startChar + text0.length
        match w.seqIds.findIdx? (fun s => s == some 1) with
        | none => none
        | some tokenStartIndex =>
          match scanDown w.seqIds (w.inputIds.length - 1) with
          | none => none
          | some tokenEndIndex =>
            match w.offsets.get? tokenStartIndex with
            | none => none
            | some o1 =>
              if o1.1 ≤ startChar then
                match w.offsets.get? tokenEndIndex with
                | none => none
                | some o2 =>
                  if endChar ≤ o2.2 then
                    let tsi := scanForward w.offsets startChar
                      w.offsets.length tokenStartIndex
                    match scanBack w.offsets endChar
                        (2 * w.offsets.length + 2) (tokenEndIndex : Int) with
                    | none => none
                    | some tei => some ((tsi : Int) - 1, tei + 1)
                  else some ((clsIndex : Int), (clsIndex : Int))
              else some ((clsIndex : Int), (clsIndex : Int))

/-- Embeds the stride computation shared by `prepare_train_examples` and
`prepare_test_examples` (question_answering.py, lines 140 and 255):
`stride = tokenizer.model_max_length // 4`. -/
def qa_stride (modelMaxLength : Nat) : Nat := modelMaxLength / 4

/-- Embeds the window length passed to the tokenizer by
`prepare_train_examples` and `prepare_test_examples`
(question_answering.py, lines 141 and 256):
`max_length = tokenizer.model_max_length - stride`. -/
def qa_max_length (modelMaxLength : Nat) : Nat :=
  modelMaxLength - qa_stride modelMaxLength

/-- Modelled from the spec: the external tokenization engine's classic
sliding-window truncation of the context (`truncation="only_second"`,
`return_overflowing_tokens=True`) splits the context token list into
chunks of at most `cap` tokens whose consecutive starts advance by
`step = cap - stride` tokens, so that consecutive chunks overlap by
`stride` tokens; the final chunk may be shorter.  Fuel-based recursion:
`contextChunks` passes the context length, which bounds the recursion
depth whenever `step ≥ 1`. -/
def contextChunksGo (cap step : Nat) : Nat → List Nat → List (List Nat)
  | 0, ctx => [ctx.take cap]
  | fuel + 1, ctx =>
    if ctx.length ≤ cap then [ctx]
    else ctx.take cap :: contextChunksGo cap step fuel (ctx.drop step)

/-- Modelled from the spec: the ordered chunks of the context produced by
sliding-window truncation with chunk capacity `cap` and overlap
`stride`. -/
def contextChunks (cap stride : Nat) (ctx : List Nat) : List (List Nat) :=
  contextChunksGo cap (cap - stride) ctx.length ctx

/-- Right-pad a token list to length `n` with the padding token,
modelling `padding="max_length"`. -/
def padTo (n padId : Nat) (l : List Nat) : List Nat :=
  l ++ List.replicate (n - l.length) padId

/-- Modelled from the spec: the windows the external tokenizer returns
for one example when called with maximum length `maxLength`, overlap
`stride` and `padding="max_length"` — question-first, context-second
concatenation, truncating only the context and carrying the overflow into
subsequent overlapping windows, each window padded to `maxLength`. -/
def slidingWindows (maxLength stride padId : Nat)
    (question ctx : List Nat) : List (List Nat) :=
  (contextChunks (maxLength - question.length) stride ctx).map
    (fun chunk => padTo maxLength padId (question ++ chunk))

/-! ## Theorems for the claims about the Window Aligner (C2, C7, C10) -/

/-- A concrete tokenized window used in concrete statements below:
CLS (id 101) at index 0, one question token (id 5, offsets (0,2)), SEP,
two context tokens (ids 10, 11 with offsets (0,2) and (3,6), i.e. context
"ab cde"), SEP, and two padding tokens. -/
def exampleWindow : TrainWindow :=
  { inputIds := [101, 5, 102, 10, 11, 102, 0, 0]
  , seqIds := [none, some 0, none, some 1, some 1, none, none, none]
  , offsets := [(0, 0), (0, 2), (0, 0), (0, 2), (3, 6), (0, 0), (0, 0), (0, 0)] }

/-- C2 (counterexample): the claim states that whenever the computed start
token index exceeds the computed end token index the emitted pair is the
no-answer sentinel.  For the window `exampleWindow` and the answer "cde"
at character 3 (whose character range the context-token offsets do
bracket), the forward scan runs past the context through the trailing
special/padding tokens (offset starts 0 ≤ 3) up to the list end and
emits start index 7, while the backward scan emits end index 4: the
computed start 7 exceeds the computed end 4, yet the emitted pair is
(7, 4), not the sentinel (0, 0) (the CLS index is 0).  The code only
checks the bracket condition and performs no start-versus-end check. -/
theorem C2_start_exceeds_end_not_sentinel :
    labelWindow 101 exampleWindow ⟨[3], ["cde"]⟩ = some (7, 4)
    ∧ exampleWindow.inputIds.indexOf? 101 = some 0
    ∧ (4 : Int) < 7
    ∧ ((7 : Int), (4 : Int)) ≠ ((0 : Int), (0 : Int)) :=
  ⟨by decide, by decide, by decide, by decide⟩

/-- C2 (amended): for every training Window, when the context-token
offsets do not bracket the answer's character range — the first context
token starts after the answer's start character, or the last context
token ends before the answer's end character — the emitted
(start, end) pair is the no-answer sentinel (the CLS index, twice).
The code performs no start-exceeds-end check; that clause of the original
claim is dropped (see the counterexample). -/
theorem C2_bracket_failure_sentinel (clsTokenId : Nat) (w : TrainWindow)
    (a : Answers) (c startChar tsi0 tei0 : Nat) (text0 : String)
    (stl : List Nat) (ttl : List String) (o1 : Nat × Nat)
    (hcls : w.inputIds.indexOf? clsTokenId = some c)
    (hstart : a.answer_start = startChar :: stl)
    (htext : a.text = text0 :: ttl)
    (htsi : w.seqIds.findIdx? (fun s => s == some 1) = some tsi0)
    (htei : scanDown w.seqIds (w.inputIds.length - 1) = some tei0)
    (ho1 : w.offsets.get? tsi0 = some o1)
    (hfail : startChar < o1.1 ∨
      ∃ o2, w.offsets.get? tei0 = some o2 ∧ o2.2 < startChar + text0.length) :
    labelWindow clsTokenId w a = some ((c : Int), (c : Int)) := by
  rcases hfail with hlt | ⟨o2, ho2, hlt⟩
  · simp only [labelWindow, hcls, hstart, htext, htsi, htei, ho1]
    rw [if_neg (by omega)]
  · simp only [labelWindow, hcls, hstart, htext, htsi, htei, ho1, ho2]
    by_cases h1 : o1.1 ≤ startChar
    · rw [if_pos h1, if_neg (by omega)]
    · rw [if_neg h1]

/-- C2 (witness): the amended theorem applied to `exampleWindow` with the
answer "x" at character 7, which lies beyond the last context token's end
offset 6: the emitted pair is the sentinel (0, 0). -/
theorem C2_bracket_failure_sentinel_witness :
    labelWindow 101 exampleWindow ⟨[7], ["x"]⟩ = some (0, 0) :=
  C2_bracket_failure_sentinel 101 exampleWindow ⟨[7], ["x"]⟩ 0 7 3 4 "x" [] []
    (0, 2) (by decide) rfl rfl (by decide) (by decide) (by decide)
    (Or.inr ⟨(3, 6), by decide, by decide⟩)

/-- C7: for every training Window of an Example whose answer-span list is
empty, the emitted (start, end) pair is the no-answer sentinel — the
index of the CLS token, twice. -/
theorem C7_no_answer_sentinel (clsTokenId : Nat) (w : TrainWindow)
    (answers : Answers) (c : Nat)
    (hcls : w.inputIds.indexOf? clsTokenId = some c)
    (hempty : answers.answer_start = []) :
    labelWindow clsTokenId w answers = some ((c : Int), (c : Int)) := by
  simp only [labelWindow, hcls, hempty]

/-- C7 (witness): the no-answer sentinel theorem applied to
`exampleWindow` with an empty answer list. -/
theorem C7_no_answer_sentinel_witness :
    labelWindow 101 exampleWindow ⟨[], []⟩ = some (0, 0) :=
  C7_no_answer_sentinel 101 exampleWindow ⟨[], []⟩ 0 (by decide) rfl

/-- C10: the training-pass labeling of a Window reads only the first
answer span — the first start character and the first answer text: two
answer records agreeing on those but differing in any further spans give
identical emitted (start, end) pairs on every window. -/
theorem C10_first_answer_span_only (clsTokenId : Nat) (w : TrainWindow)
    (a1 a2 : Answers) (s : Nat) (t : String) (tl1 tl2 : List Nat)
    (ttl1 ttl2 : List String)
    (h1 : a1.answer_start = s :: tl1) (h2 : a2.answer_start = s :: tl2)
    (h3 : a1.text = t :: ttl1) (h4 : a2.text = t :: ttl2) :
    labelWindow clsTokenId w a1 = labelWindow clsTokenId w a2 := by
  simp only [labelWindow, h1, h2, h3, h4]

/-- C10 (witness): two answer records with the same first span but
different extra spans label `exampleWindow` identically. -/
theorem C10_first_answer_span_only_witness :
    labelWindow 101 exampleWindow ⟨[3], ["cde"]⟩
      = labelWindow 101 exampleWindow ⟨[3, 9], ["cde", "zz"]⟩ :=
  C10_first_answer_span_only 101 exampleWindow ⟨[3], ["cde"]⟩
    ⟨[3, 9], ["cde", "zz"]⟩ 3 "cde" [] [9] [] ["zz"] rfl rfl rfl rfl

/-! ## Theorems for the claims about the Generative Label Resolver
(C1, C4, C8, C9) and numeric label mapping (C5) -/

theorem get_closest_logprobs_labels_cons (tokenize : String → List Nat)
    (id2label : List String) (plm : String → String)
    (step0 : List (List Int)) (rest : List (List (List Int))) :
    get_closest_logprobs_labels tokenize id2label plm (step0 :: rest) =
      match mapOrNone (fun cl => (tokenize (pyLower cl)).head?)
          (id2label.map plm) with
      | none => none
      | some repIds =>
        mapOrNone (fun row =>
          match mapOrNone (fun tid => row.get? tid) repIds with
          | none => none
          | some scores =>
            match argmaxAux scores with
            | none => none
            | some jm => (id2label.map plm).get? jm.1) step0 := rfl

theorem get_closest_word_edit_labels_eq (decodeTruncate : List Nat → String)
    (id2label : List String) (seqs : List (List Nat)) :
    get_closest_word_edit_labels decodeTruncate id2label seqs =
      mapOrNone (fun predicted_label =>
        match argminAux (id2label.map (fun candidate_label =>
          levenshtein Levenshtein.defaultCost (pyLower predicted_label).toList
            (pyLower candidate_label).toList)) with
        | none => none
        | some jm => id2label.get? jm.1) (seqs.map decodeTruncate) := rfl

/-- C1: for every batch item of the log-probability strategy, the score of
each candidate (the prompt labels of `id2label`, in order) is the
log-probability, at the first generated position only, of the first token
id of the candidate's lowercased prompt label tokenized in isolation;
the returned label for the item is the candidate at the index of the
first maximal score (ties broken towards the earlier candidate). -/
theorem C1_logprob_first_token_first_position (tokenize : String → List Nat)
    (id2label : List String) (plm : String → String)
    (step0 : List (List Int)) (rest : List (List (List Int)))
    (preds : List String) (b : Nat) (row : List Int)
    (hres : get_closest_logprobs_labels tokenize id2label plm (step0 :: rest)
      = some preds)
    (hrow : step0.get? b = some row) :
    ∃ repIds scores j m,
      mapOrNone (fun cl => (tokenize (pyLower cl)).head?) (id2label.map plm)
        = some repIds
      ∧ mapOrNone (fun tid => row.get? tid) repIds = some scores
      ∧ argmaxAux scores = some (j, m)
      ∧ preds.get? b = (id2label.map plm).get? j
      ∧ scores.get? j = some m
      ∧ (∀ i v, scores.get? i = some v → v ≤ m)
      ∧ (∀ i v, i < j → scores.get? i = some v → v < m) := by
  rw [get_closest_logprobs_labels_cons] at hres
  cases hrep : mapOrNone (fun cl => (tokenize (pyLower cl)).head?)
      (id2label.map plm) with
  | none => rw [hrep] at hres; exact absurd hres (by simp)
  | some repIds =>
    rw [hrep] at hres
    obtain ⟨out, hout, hpb⟩ := mapOrNone_get? hres b row hrow
    split at hout
    · exact absurd hout (by simp)
    · next scores hsc =>
      split at hout
      · exact absurd hout (by simp)
      · next jm ham =>
        obtain ⟨j, m⟩ := jm
        obtain ⟨hget, hmax, hfirst⟩ := argmaxAux_spec ham
        exact ⟨repIds, scores, j, m, rfl, hsc, ham,
          by rw [hpb, ← hout], hget, hmax, hfirst⟩

/-- C1 (witness): the theorem applied to candidates
["positive", "negative"] (prompt labels equal to the canonical labels),
a tokenizer sending "positive" to token 0 and anything else to token 1,
and one generation step with scores [-1, -2] for the single batch item. -/
theorem C1_logprob_first_token_first_position_witness :
    ∃ repIds scores j m,
      mapOrNone
          (fun cl => ((fun s => if s = "positive" then [0] else [1])
            (pyLower cl)).head?)
          (["positive", "negative"].map (fun l => l)) = some repIds
      ∧ mapOrNone (fun tid => [(-1 : Int), -2].get? tid) repIds = some scores
      ∧ argmaxAux scores = some (j, m)
      ∧ ["positive"].get? 0 = (["positive", "negative"].map (fun l => l)).get? j
      ∧ scores.get? j = some m
      ∧ (∀ i v, scores.get? i = some v → v ≤ m)
      ∧ (∀ i v, i < j → scores.get? i = some v → v < m) :=
  C1_logprob_first_token_first_position
    (fun s => if s = "positive" then [0] else [1]) ["positive", "negative"]
    (fun l => l) [[(-1 : Int), -2]] [] ["positive"] 0 [(-1 : Int), -2]
    (by decide) rfl

/-- C4 (counterexample): the claim states the resolver computes a
case-insensitive Levenshtein distance of 8 from decoded text "Negetive"
to candidate "positive"; the distance the code computes is 4, not 8
("nege" → "posi" by four substitutions, with common suffix "tive"). -/
theorem C4_edit_distance_not_eight :
    levenshtein Levenshtein.defaultCost (pyLower "Negetive").toList
      (pyLower "positive").toList = 4
    ∧ (4 : Nat) ≠ 8 := ⟨by decide, by decide⟩

/-- C4 (amended): for decoded model text "Negetive" and candidate set
["positive", "negative"], the edit-distance strategy computes
case-insensitive Levenshtein distances 4 to "positive" and 1 to
"negative", and returns "negative". -/
theorem C4_edit_distance_example :
    get_closest_word_edit_labels (fun _ => "Negetive") ["positive", "negative"]
      [[0]] = some ["negative"]
    ∧ levenshtein Levenshtein.defaultCost (pyLower "Negetive").toList
        (pyLower "positive").toList = 4
    ∧ levenshtein Levenshtein.defaultCost (pyLower "Negetive").toList
        (pyLower "negative").toList = 1 := ⟨by decide, by decide, by decide⟩

/-- C5 (code bug): on a batch whose ground-truth label "neutral" is absent
from the mapping {positive ↦ 0, negative ↦ 1}, the lookup raises KeyError
and the handler attempts to raise the typed `InvalidBenchmark` — but its
message f-string calls `.lower()` on `examples["label"]`, the whole list
of labels, so the code raises `AttributeError` instead, and no typed
exception naming the offending label is ever constructed. -/
theorem C5_numerical_labels_attribute_error :
    create_numerical_labels [("positive", 0), ("negative", 1)] ["neutral"]
      = Except.error (PyError.attributeError
          "list object has no attribute lower")
    ∧ isInvalidBenchmark (create_numerical_labels
        [("positive", 0), ("negative", 1)] ["neutral"]) = false :=
  ⟨rfl, rfl⟩

/-- C8 (counterexample): the claim states both strategies return a
canonical label of the closed candidate set; the log-probability strategy
returns the candidate's *prompt label* string, which for the canonical
set ["positive"] with prompt label "positiv" is not a member of the
canonical set. -/
theorem C8_logprob_returns_prompt_label :
    get_closest_logprobs_labels (fun _ => [0]) ["positive"]
      (fun _ => "positiv") [[[5]]] = some ["positiv"]
    ∧ "positiv" ∉ ["positive"] := ⟨by decide, by decide⟩

/-- C8 (amended): each strategy returns exactly one label string per input
item — the log-probability strategy one *prompt label* (the prompt-label
image of the candidate set, in order), the edit-distance strategy one
*canonical* label of the candidate set. -/
theorem C8_one_resolved_label_per_item :
    (∀ (tokenize : String → List Nat) (id2label : List String)
        (plm : String → String) (step0 : List (List Int))
        (rest : List (List (List Int))) (preds : List String),
      get_closest_logprobs_labels tokenize id2label plm (step0 :: rest)
        = some preds →
      preds.length = step0.length ∧ ∀ p ∈ preds, p ∈ id2label.map plm)
    ∧ (∀ (decodeTruncate : List Nat → String) (id2label : List String)
        (seqs : List (List Nat)) (preds : List String),
      get_closest_word_edit_labels decodeTruncate id2label seqs = some preds →
      preds.length = seqs.length ∧ ∀ p ∈ preds, p ∈ id2label) := by
  constructor
  · intro tokenize id2label plm step0 rest preds hres
    rw [get_closest_logprobs_labels_cons] at hres
    cases hrep : mapOrNone (fun cl => (tokenize (pyLower cl)).head?)
        (id2label.map plm) with
    | none => rw [hrep] at hres; exact absurd hres (by simp)
    | some repIds =>
      rw [hrep] at hres
      refine ⟨mapOrNone_length hres, ?_⟩
      intro p hp
      obtain ⟨row, _, hf⟩ := mapOrNone_mem hres p hp
      split at hf
      · exact absurd hf (by simp)
      · split at hf
        · exact absurd hf (by simp)
        · exact List.get?_mem hf
  · intro decodeTruncate id2label seqs preds hres
    rw [get_closest_word_edit_labels_eq] at hres
    refine ⟨by rw [mapOrNone_length hres, List.length_map], ?_⟩
    intro p hp
    obtain ⟨raw, _, hf⟩ := mapOrNone_mem hres p hp
    split at hf
    · exact absurd hf (by simp)
    · exact List.get?_mem hf

/-- C8 (witness): the amended theorem applied to the two concrete resolver
runs used elsewhere in this file. -/
theorem C8_one_resolved_label_per_item_witness :
    (["positiv"].length = [[(5 : Int)]].length
      ∧ ∀ p ∈ ["positiv"], p ∈ ["positive"].map (fun _ => "positiv"))
    ∧ (["negative"].length = [[(0 : Nat)]].length
      ∧ ∀ p ∈ ["negative"], p ∈ ["positive", "negative"]) :=
  ⟨C8_one_resolved_label_per_item.1 (fun _ => [0]) ["positive"]
      (fun _ => "positiv") [[(5 : Int)]] [] ["positiv"] (by decide),
    C8_one_resolved_label_per_item.2 (fun _ => "Negetive")
      ["positive", "negative"] [[(0 : Nat)]] ["negative"] (by decide)⟩

/-- C9: both resolver strategies are deterministic pure per-item
functions: for any two runs with the same candidate set and the same
tokenizer (respectively the same decode function), two batch items
carrying identical inputs — the same step-0 log-probability row,
respectively the same generated token sequence — resolve to the same
label, regardless of the rest of either batch. -/
theorem C9_resolver_purity :
    (∀ (tokenize : String → List Nat) (id2label : List String)
        (plm : String → String) (s1 s2 : List (List Int))
        (r1 r2 : List (List (List Int))) (p1 p2 : List String)
        (b1 b2 : Nat) (row : List Int),
      get_closest_logprobs_labels tokenize id2label plm (s1 :: r1) = some p1 →
      get_closest_logprobs_labels tokenize id2label plm (s2 :: r2) = some p2 →
      s1.get? b1 = some row → s2.get? b2 = some row →
      p1.get? b1 = p2.get? b2)
    ∧ (∀ (decodeTruncate : List Nat → String) (id2label : List String)
        (seqs1 seqs2 : List (List Nat)) (q1 q2 : List String)
        (i1 i2 : Nat) (s : List Nat),
      get_closest_word_edit_labels decodeTruncate id2label seqs1 = some q1 →
      get_closest_word_edit_labels decodeTruncate id2label seqs2 = some q2 →
      seqs1.get? i1 = some s → seqs2.get? i2 = some s →
      q1.get? i1 = q2.get? i2) := by
  constructor
  · intro tokenize id2label plm s1 s2 r1 r2 p1 p2 b1 b2 row h1 h2 hrow1 hrow2
    rw [get_closest_logprobs_labels_cons] at h1 h2
    cases hrep : mapOrNone (fun cl => (tokenize (pyLower cl)).head?)
        (id2label.map plm) with
    | none => rw [hrep] at h1; exact absurd h1 (by simp)
    | some repIds =>
      rw [hrep] at h1
      rw [hrep] at h2
      obtain ⟨o1, ho1, hp1⟩ := mapOrNone_get? h1 b1 row hrow1
      obtain ⟨o2, ho2, hp2⟩ := mapOrNone_get? h2 b2 row hrow2
      rw [hp1, hp2, Option.some.inj (ho1.symm.trans ho2)]
  · intro decodeTruncate id2label seqs1 seqs2 q1 q2 i1 i2 s h1 h2 hs1 hs2
    rw [get_closest_word_edit_labels_eq] at h1 h2
    have hm1 : (seqs1.map decodeTruncate).get? i1 = some (decodeTruncate s) := by
      rw [List.get?_map, hs1]; rfl
    have hm2 : (seqs2.map decodeTruncate).get? i2 = some (decodeTruncate s) := by
      rw [List.get?_map, hs2]; rfl
    obtain ⟨o1, ho1, hp1⟩ := mapOrNone_get? h1 i1 (decodeTruncate s) hm1
    obtain ⟨o2, ho2, hp2⟩ := mapOrNone_get? h2 i2 (decodeTruncate s) hm2
    rw [hp1, hp2, Option.some.inj (ho1.symm.trans ho2)]

/-- C9 (witness): the purity theorem applied to two concrete runs of each
strategy on identical per-item inputs. -/
theorem C9_resolver_purity_witness :
    ["positive"].get? 0 = ["positive"].get? 0
    ∧ ["negative"].get? 0 = ["negative"].get? 0 :=
  ⟨C9_resolver_purity.1 (fun s => if s = "positive" then [0] else [1])
      ["positive", "negative"] (fun l => l) [[(-1 : Int), -2]]
      [[(-1 : Int), -2]] [] [] ["positive"] ["positive"] 0 0
      [(-1 : Int), -2] (by decide) (by decide) rfl rfl,
    C9_resolver_purity.2 (fun _ => "Negetive") ["positive", "negative"]
      [[(0 : Nat)]] [[(0 : Nat)]] ["negative"] ["negative"] 0 0 [(0 : Nat)]
      (by decide) (by decide) rfl rfl⟩

/-! ## Theorems for the claim about window length and stride (C6) -/

theorem contextChunksGo_get? (cap step : Nat) (hstep : 0 < step) :
    ∀ (fuel : Nat) (ctx : List Nat), ctx.length ≤ fuel →
      ∀ i ch, (contextChunksGo cap step fuel ctx).get? i = some ch →
        ch = (ctx.drop (i * step)).take cap := by
  intro fuel
  induction fuel with
  | zero =>
    intro ctx hlen i ch h
    have hctx : ctx = [] := List.eq_nil_of_length_eq_zero (by omega)
    subst hctx
    simp only [contextChunksGo, List.take_nil] at h
    cases i with
    | zero =>
      simp only [List.get?_cons_zero] at h
      cases h
      simp
    | succ i => simp at h
  | succ fuel ih =>
    intro ctx hlen i ch h
    simp only [contextChunksGo] at h
    by_cases hc : ctx.length ≤ cap
    · rw [if_pos hc] at h
      cases i with
      | zero =>
        simp only [List.get?_cons_zero] at h
        cases h
        rw [Nat.zero_mul, List.drop_zero, List.take_of_length_le hc]
      | succ i => simp at h
    · rw [if_neg hc] at h
      cases i with
      | zero =>
        simp only [List.get?_cons_zero] at h
        cases h
        rw [Nat.zero_mul, List.drop_zero]
      | succ i =>
        have hrec := ih (ctx.drop step)
          (by rw [List.length_drop]; omega) i ch (by simpa using h)
        rw [hrec, List.drop_drop]
        congr 2
        ring

/-- C6 (counterexample): the claim states the Window Aligner produces
fixed-length token windows of length `L` (the tokenizer-reported maximum
window length).  The code passes `max_length = L - L // 4` to the
tokenizer (question_answering.py, lines 140-141 and 255-256), so with
`L = 16`, a 2-token question and a 20-token context every produced window
has length 12, not 16. -/
theorem C6_window_length_not_L :
    ((slidingWindows (qa_max_length 16) (qa_stride 16) 0 [1, 2]
        (List.range 20)).get? 0).map List.length = some 12
    ∧ (12 : Nat) ≠ 16
    ∧ qa_max_length 16 = 12 := ⟨by decide, by decide, by decide⟩

/-- C6 (amended): with `S = L / 4` (the stride the code passes to the
tokenizer) the produced windows have fixed length `L - S`, not `L`; and
consecutive windows of the same Example overlap by exactly `S` context
tokens — every full-capacity context chunk shares its last `S` tokens
with the first `S` tokens of the next chunk (the final chunk may be
shorter). -/
theorem C6_window_length_and_overlap (L padId : Nat)
    (question ctx : List Nat)
    (hq : question.length ≤ qa_max_length L)
    (hsl : qa_stride L ≤ qa_max_length L - question.length)
    (hstep : 0 < qa_max_length L - question.length - qa_stride L) :
    (∀ win ∈ slidingWindows (qa_max_length L) (qa_stride L) padId
        question ctx, win.length = qa_max_length L)
    ∧ (∀ i ch1 ch2,
        (contextChunks (qa_max_length L - question.length) (qa_stride L)
          ctx).get? i = some ch1 →
        (contextChunks (qa_max_length L - question.length) (qa_stride L)
          ctx).get? (i + 1) = some ch2 →
        ch1.length = qa_max_length L - question.length →
        ch1.drop (ch1.length - qa_stride L) = ch2.take (qa_stride L)
        ∧ (ch1.drop (ch1.length - qa_stride L)).length = qa_stride L) := by
  constructor
  · intro win hwin
    simp only [slidingWindows, List.mem_map] at hwin
    obtain ⟨ch, hch, hwineq⟩ := hwin
    obtain ⟨n, hn⟩ := List.mem_iff_get?.mp hch
    have hform := contextChunksGo_get? (qa_max_length L - question.length)
      (qa_max_length L - question.length - qa_stride L) hstep ctx.length ctx
      le_rfl n ch hn
    have hchlen : ch.length ≤ qa_max_length L - question.length := by
      rw [hform, List.length_take]
      omega
    rw [← hwineq]
    simp only [padTo, List.length_append, List.length_replicate]
    omega
  · intro i ch1 ch2 h1 h2 hfull
    have hform1 := contextChunksGo_get? (qa_max_length L - question.length)
      (qa_max_length L - question.length - qa_stride L) hstep ctx.length ctx
      le_rfl i ch1 h1
    have hform2 := contextChunksGo_get? (qa_max_length L - question.length)
      (qa_max_length L - question.length - qa_stride L) hstep ctx.length ctx
      le_rfl (i + 1) ch2 h2
    constructor
    · rw [hfull, hform1, hform2, List.drop_take,
        show qa_max_length L - question.length -
          (qa_max_length L - question.length - qa_stride L)
          = qa_stride L by omega,
        List.drop_drop, List.take_take,
        show min (qa_stride L) (qa_max_length L - question.length)
          = qa_stride L by omega]
      congr 1
      ring_nf
    · rw [List.length_drop, hfull]
      have : ch1.length = qa_max_length L - question.length := hfull
      omega

/-- C6 (witness): the amended theorem applied to `L = 16`, a 2-token
question and a 20-token context: every window has length 12 and
consecutive full chunks overlap by exactly 4 context tokens. -/
theorem C6_window_length_and_overlap_witness :
    (∀ win ∈ slidingWindows (qa_max_length 16) (qa_stride 16) 0 [1, 2]
        (List.range 20), win.length = qa_max_length 16)
    ∧ (∀ i ch1 ch2,
        (contextChunks (qa_max_length 16 - [1, 2].length) (qa_stride 16)
          (List.range 20)).get? i = some ch1 →
        (contextChunks (qa_max_length 16 - [1, 2].length) (qa_stride 16)
          (List.range 20)).get? (i + 1) = some ch2 →
        ch1.length = qa_max_length 16 - [1, 2].length →
        ch1.drop (ch1.length - qa_stride 16) = ch2.take (qa_stride 16)
        ∧ (ch1.drop (ch1.length - qa_stride 16)).length = qa_stride 16) :=
  C6_window_length_and_overlap 16 0 [1, 2] (List.range 20)
    (by decide) (by decide) (by decide)

/-! ## Theorems for the claim about the Few-Shot Prompt Sampler (C3) -/

theorem succ_mod_eq (n k : Nat) (hn : 0 < n) :
    (k + 1) % n = if k % n + 1 = n then 0 else k % n + 1 := by
  have hdm := Nat.div_add_mod k n
  have hk1 : k + 1 = n * (k / n) + (k % n + 1) := by omega
  rw [hk1, Nat.mul_add_mod]
  by_cases h : k % n + 1 = n
  · rw [if_pos h, h, Nat.mod_self]
  · rw [if_neg h, Nat.mod_eq_of_lt
      (show k % n + 1 < n by have := Nat.mod_lt k hn; omega)]

theorem succ_div_eq (n k : Nat) (hn : 0 < n) :
    (k + 1) / n = if k % n + 1 = n then k / n + 1 else k / n := by
  have hdm := Nat.div_add_mod k n
  have hk1 : k + 1 = n * (k / n) + (k % n + 1) := by omega
  rw [hk1, Nat.mul_add_div hn]
  by_cases h : k % n + 1 = n
  · rw [if_pos h, h, Nat.div_self hn]
  · rw [if_neg h, Nat.div_eq_of_lt
      (show k % n + 1 < n by have := Nat.mod_lt k hn; omega)]
    omega

theorem count_range_mod (n j : Nat) (hn : 0 < n) (hj : j < n) :
    ∀ k, (List.range k).countP (fun i => i % n == j)
      = k / n + if j < k % n then 1 else 0 := by
  intro k
  induction k with
  | zero => simp
  | succ k ih =>
    rw [List.range_succ, List.countP_append, ih]
    have hsm := succ_mod_eq n k hn
    have hsd := succ_div_eq n k hn
    have hml : k % n < n := Nat.mod_lt k hn
    simp only [List.countP_cons, List.countP_nil, beq_iff_eq]
    rw [hsm, hsd]
    split_ifs <;> omega

theorem extractFewShotGo_spec (labels : List String) :
    ∀ (rem li : Nat) (pool sel : List FewShotExample),
      extractFewShotGo labels rem li pool = some sel →
      sel.length = rem
      ∧ (∀ ex ∈ sel, ex ∈ pool)
      ∧ sel.Pairwise (fun a b => a.text ≠ b.text)
      ∧ sel.map (fun ex => pyLower ex.label)
          = (List.range rem).map (fun i =>
              pyLower ((labels.get? ((li + i) % labels.length)).getD "")) := by
  intro rem
  induction rem with
  | zero =>
    intro li pool sel h
    simp only [extractFewShotGo] at h
    cases h
    exact ⟨rfl, by simp, by simp, by simp⟩
  | succ rem ih =>
    intro li pool sel h
    simp only [extractFewShotGo] at h
    split at h
    · exact absurd h (by simp)
    · next label hlabel =>
      split at h
      · exact absurd h (by simp)
      · next ex hex =>
        split at h
        · exact absurd h (by simp)
        · next rest hrest =>
          cases h
          obtain ⟨hlen, hmem, hpw, hmap⟩ := ih (li + 1)
            (pool.filter (fun x => x.text != ex.text)) rest hrest
          have hexmem : ex ∈ pool.filter (labelMatches label) :=
            List.mem_of_mem_head? hex
          have hfilt : labelMatches label ex = true :=
            List.of_mem_filter hexmem
          have hexlabel : pyLower ex.label = pyLower label := by
            simpa [labelMatches] using hfilt
          refine ⟨by simp [hlen], ?_, ?_, ?_⟩
          · intro b hb
            rcases List.mem_cons.mp hb with hb | hb
            · exact hb ▸ List.mem_of_mem_filter hexmem
            · exact List.mem_of_mem_filter (hmem b hb)
          · refine List.Pairwise.cons ?_ hpw
            intro b hb
            have := List.of_mem_filter (hmem b hb)
            simp only [bne_iff_ne, ne_eq] at this
            exact fun hcontra => this hcontra.symm
          · have hr : List.range (rem + 1) = 0 :: (List.range rem).map Nat.succ :=
              List.range_succ_eq_map rem
            rw [hr, List.map_cons, List.map_cons, List.map_map, hmap]
            congr 1
            · show pyLower ex.label
                = pyLower ((labels.get? ((li + 0) % labels.length)).getD "")
              rw [show li + 0 = li from rfl, hlabel, Option.getD_some]
              exact hexlabel
            · refine List.map_congr_left ?_
              intro i _
              show pyLower ((labels.get? ((li + 1 + i) % labels.length)).getD "")
                = pyLower ((labels.get? ((li + Nat.succ i) % labels.length)).getD "")
              rw [show li + 1 + i = li + Nat.succ i by omega]

/-- C3 (counterexample): the claim states that labels are assigned
round-robin over the *seed-shuffled* Label Candidate Set.  The code
cycles over the label set in its configured order and never shuffles it
(it is the training split that is shuffled).  With training pool
[("t1", positive), ("t2", negative)], label set [positive, negative] and
one example requested, the code picks the "positive" example; had the
labels been assigned round-robin over the shuffled copy
[negative, positive] — a permutation of the label set that a seeded
shuffle can produce — the single assigned label would have been
"negative". -/
theorem C3_label_cycle_ignores_shuffle :
    extract_few_shot_examples
      [⟨"t1", "positive"⟩, ⟨"t2", "negative"⟩] ["positive", "negative"] 1 id
      = some [⟨"t1", "positive"⟩]
    ∧ List.Perm ["negative", "positive"] ["positive", "negative"]
    ∧ claimAssignedLabels ["negative", "positive"] 1 = ["negative"]
    ∧ pyLower "positive" ≠ pyLower "negative" :=
  ⟨by decide, by decide, by decide, by decide⟩

/-- C3 (amended): a successful few-shot extraction returns exactly `k`
examples, no two of which have identical text; labels are assigned
round-robin over the Label Candidate Set *in its configured order* (it is
the training split, not the label set, that is seed-shuffled), cycling
until `k` examples are collected, so that the label at position `j` of
the candidate set is carried by `⌊k/n⌋ + 1` of the selected examples if
`j < k mod n` and by `⌊k/n⌋` of them otherwise (hence `⌊k/n⌋` or
`⌈k/n⌉` of them); afterwards the presentation order is reshuffled by the
PRNG seeded with the same seed (any permutation). -/
theorem C3_few_shot_selection (pool : List FewShotExample)
    (labels : List String) (k : Nat)
    (shuffle : List FewShotExample → List FewShotExample)
    (out : List FewShotExample)
    (hshuf : ∀ l, List.Perm (shuffle l) l)
    (hdistinct : labels.Pairwise (fun a b => pyLower a ≠ pyLower b))
    (hrun : extract_few_shot_examples pool labels k shuffle = some out) :
    out.length = k
    ∧ out.Pairwise (fun a b => a.text ≠ b.text)
    ∧ (∀ j lab, labels.get? j = some lab →
        out.countP (fun ex => pyLower ex.label == pyLower lab)
          = k / labels.length
            + if j < k % labels.length then 1 else 0)
    ∧ ∃ sel, extractFewShotGo labels k 0 pool = some sel
        ∧ out = shuffle sel
        ∧ sel.map (fun ex => pyLower ex.label)
            = (List.range k).map (fun i =>
                pyLower ((labels.get? (i % labels.length)).getD "")) := by
  simp only [extract_few_shot_examples] at hrun
  cases hgo : extractFewShotGo labels k 0 pool with
  | none => rw [hgo] at hrun; exact absurd hrun (by simp)
  | some sel =>
    rw [hgo] at hrun
    have hout : shuffle sel = out := by simpa using hrun
    obtain ⟨hlen, _, hpw, hmap⟩ := extractFewShotGo_spec labels k 0 pool sel hgo
    have hperm : List.Perm out sel := hout ▸ hshuf sel
    have hmap0 : sel.map (fun ex => pyLower ex.label)
        = (List.range k).map (fun i =>
            pyLower ((labels.get? (i % labels.length)).getD "")) := by
      rw [hmap]
      refine List.map_congr_left ?_
      intro i _
      show pyLower ((labels.get? ((0 + i) % labels.length)).getD "")
        = pyLower ((labels.get? (i % labels.length)).getD "")
      rw [Nat.zero_add]
    refine ⟨by rw [hperm.length_eq, hlen], ?_, ?_, sel, rfl, hout.symm, hmap0⟩
    · exact (hperm.pairwise_iff (fun h => Ne.symm h)).mpr hpw
    · intro j lab hj
      have hn : 0 < labels.length := by
        by_contra hcon
        have : labels = [] := List.eq_nil_of_length_eq_zero (by omega)
        rw [this] at hj
        simp at hj
      have hjlt : j < labels.length := by
        by_contra hcon
        rw [List.get?_eq_none.mpr (by omega)] at hj
        exact absurd hj (by simp)
      rw [hperm.countP_eq]
      have hc1 : sel.countP (fun ex => pyLower ex.label == pyLower lab)
          = (sel.map (fun ex => pyLower ex.label)).countP
              (fun s => s == pyLower lab) := by
        rw [List.countP_map]
        rfl
      rw [hc1, hmap0, List.countP_map]
      have hc2 : (List.range k).countP
          ((fun s => s == pyLower lab) ∘ (fun i =>
            pyLower ((labels.get? (i % labels.length)).getD "")))
          = (List.range k).countP (fun i => i % labels.length == j) := by
        refine List.countP_congr ?_
        intro i _
        simp only [Function.comp]
        constructor
        · intro htrue
          have heq : pyLower ((labels.get? (i % labels.length)).getD "")
              = pyLower lab := beq_iff_eq.mp htrue
          have himod : i % labels.length < labels.length := Nat.mod_lt i hn
          have hlab' : labels.get? (i % labels.length)
              = some (labels.get ⟨i % labels.length, himod⟩) :=
            List.get?_eq_get himod
          rw [hlab', Option.getD_some] at heq
          obtain ⟨hjl, hgj⟩ := List.get?_eq_some.mp hj
          have hpair := List.pairwise_iff_get.mp hdistinct
          refine beq_iff_eq.mpr ?_
          by_contra hne
          rcases Nat.lt_or_ge (i % labels.length) j with hlt | hge
          · exact (hpair ⟨i % labels.length, himod⟩ ⟨j, hjl⟩
              (Fin.mk_lt_mk.mpr hlt)) (by rw [hgj, heq])
          · have hlt2 : j < i % labels.length := by omega
            exact (hpair ⟨j, hjl⟩ ⟨i % labels.length, himod⟩
              (Fin.mk_lt_mk.mpr hlt2)) (by rw [hgj, heq])
        · intro htrue
          have heqj : i % labels.length = j := beq_iff_eq.mp htrue
          rw [heqj, hj]
          simp
      rw [hc2, count_range_mod labels.length j hn hjlt k]

/-- C3 (witness): the amended theorem applied to a four-example pool,
label set [positive, negative], three requested examples and the
identity presentation shuffle: three examples with pairwise distinct
texts, "positive" carried twice (2 = 3/2 + 1, index 0 < 3 mod 2) and
"negative" once. -/
theorem C3_few_shot_selection_witness :
    ([⟨"t1", "positive"⟩, ⟨"t2", "negative"⟩,
        ⟨"t3", "positive"⟩] : List FewShotExample).length = 3
    ∧ ([⟨"t1", "positive"⟩, ⟨"t2", "negative"⟩,
        ⟨"t3", "positive"⟩] : List FewShotExample).Pairwise
        (fun a b => a.text ≠ b.text)
    ∧ (∀ j lab, ["positive", "negative"].get? j = some lab →
        ([⟨"t1", "positive"⟩, ⟨"t2", "negative"⟩,
            ⟨"t3", "positive"⟩] : List FewShotExample).countP
            (fun ex => pyLower ex.label == pyLower lab)
          = 3 / 2 + if j < 3 % 2 then 1 else 0)
    ∧ ∃ sel, extractFewShotGo ["positive", "negative"] 3 0
          [⟨"t1", "positive"⟩, ⟨"t2", "negative"⟩,
            ⟨"t3", "positive"⟩, ⟨"t4", "negative"⟩] = some sel
        ∧ ([⟨"t1", "positive"⟩, ⟨"t2", "negative"⟩,
            ⟨"t3", "positive"⟩] : List FewShotExample) = id sel
        ∧ sel.map (fun ex => pyLower ex.label)
            = (List.range 3).map (fun i =>
                pyLower ((["positive", "negative"].get? (i % 2)).getD "")) :=
  C3_few_shot_selection
    [⟨"t1", "positive"⟩, ⟨"t2", "negative"⟩, ⟨"t3", "positive"⟩,
      ⟨"t4", "negative"⟩]
    ["positive", "negative"] 3 id
    [⟨"t1", "positive"⟩, ⟨"t2", "negative"⟩, ⟨"t3", "positive"⟩]
    (fun l => List.Perm.refl l) (by decide) (by decide)

end ScandEval
